import Mathlib

/-!
Verification development for the Royal-Rumble drawing bot (src/bot.py, src/app.py).

The persistent store is modelled relationally: a table is a list of rows, a row a
list of SQL values in the column order of the corresponding CREATE TABLE statement.
Each bot command that the claims mention is embedded as a Lean function from a
database state (plus the command's inputs) to the emitted messages and the new
committed state; a statement that the database rejects makes the handler take its
except-branch, leaving the committed state unchanged (psycopg2 only makes work
visible at commit).
-/

/-- A SQL value as stored in the PostgreSQL tables used by the bot. -/
inductive Val where
  | int (n : Int)
  | str (s : String)
  | bool (b : Bool)
  | null
deriving DecidableEq

abbrev Row := List Val
abbrev Table := List Row

/-- Column list of `CREATE TABLE drawings` (bot.py lines 24-32, app.py 34-42). -/
def drawingsCols : List String :=
  ["drawing_id", "name", "status", "is_archived", "time_limit_hours"]

/-- Column list of `CREATE TABLE entries` (bot.py lines 33-43, app.py 43-53).
Note that no `user_id` column is declared. -/
def entriesCols : List String :=
  ["entry_id", "entrant_number", "entrant_name", "drawing_id", "eliminated_by", "status"]

/-- Column list of `CREATE TABLE entry_users` (bot.py lines 44-51). -/
def entryUsersCols : List String := ["entry_id", "user_id"]

/-- Column list of `CREATE TABLE archived_drawings` (bot.py lines 52-58): only three
columns, unlike the five-column `drawings`. -/
def archivedDrawingsCols : List String := ["drawing_id", "name", "status"]

/-- Column list of `CREATE TABLE archived_entries` (bot.py lines 59-68). -/
def archivedEntriesCols : List String :=
  ["entry_id", "entrant_number", "entrant_name", "drawing_id", "eliminated_by", "status"]

/-- Column list of `CREATE TABLE results` (bot.py lines 76-83). -/
def resultsCols : List String := ["result_id", "drawing_id", "winner_id"]

/-- Value of column `c` in row `r` laid out according to `schema`. -/
def getCol (schema : List String) (c : String) (r : Row) : Val :=
  match schema.findIdx? (fun s => s == c) with
  | some i => r.getD i Val.null
  | none => Val.null

/-- `SELECT ... WHERE c = v LIMIT`-style lookup: first row of `t` whose column `c`
(under `schema`) equals `v`, as `cursor.fetchone()` returns it. -/
def findRow (t : Table) (schema : List String) (c : String) (v : Val) : Option Row :=
  t.find? (fun r => getCol schema c r == v)

/-- The committed database state: the seven tables the program creates, plus the
sequence counters backing the SERIAL primary keys that the embedded statements use. -/
structure DB where
  drawings : Table
  entries : Table
  entry_users : Table
  archived_drawings : Table
  archived_entries : Table
  archived_entry_users : Table
  results : Table
  entriesSeq : Nat
  resultsSeq : Nat
deriving DecidableEq

/-- Errors a single SQL statement can raise in the embedded fragment. -/
inductive SqlErr where
  | undefinedColumn
  | uniqueViolation
  | fkViolation
  | tooManyExpressions
deriving DecidableEq

/-- `INSERT INTO entries (cols) VALUES (vals)`. The statement is rejected when a
listed column is not declared in the `entries` schema; otherwise the row is built
in schema order, `entry_id` from the SERIAL counter and `status` from its
`DEFAULT 'pending'`. The schema declares no UNIQUE constraint on entries. -/
def insertEntries (db : DB) (cols : List String) (vals : List Val) : Except SqlErr DB :=
  if cols.all (fun c => entriesCols.contains c) then
    let row := entriesCols.map (fun c =>
      match (cols.zip vals).find? (fun p => p.1 == c) with
      | some p => p.2
      | none =>
          if c == "entry_id" then Val.int (Int.ofNat db.entriesSeq)
          else if c == "status" then Val.str "pending"
          else Val.null)
    Except.ok { db with entries := db.entries ++ [row], entriesSeq := db.entriesSeq + 1 }
  else Except.error SqlErr.undefinedColumn

/-- `SELECT entrant_number FROM entries WHERE drawing_id = %s` (bot.py line 156). -/
def takenNumbers (db : DB) (did : Val) : List Val :=
  (db.entries.filter (fun r => getCol entriesCols "drawing_id" r == did)).map
    (fun r => getCol entriesCols "entrant_number" r)

/-- `set(range(1, 31)) - set(taken_numbers)` (bot.py lines 158-159): the pool 1..30
minus the entrant numbers already taken in the drawing. -/
def availableNumbers (db : DB) (did : Val) : List Int :=
  ((List.range 30).map (fun k => (Int.ofNat k) + 1)).filter
    (fun n => !((takenNumbers db did).contains (Val.int n)))

/-- Outcomes of `join_drawing`, one per message branch of the handler. -/
inductive JoinMsg where
  | notFound
  | closed
  | full
  | joined (n : Int)
  | alreadyJoined
  | storageError
deriving DecidableEq

/-- bot.py `join_drawing` (lines 140-175); app.py `join_drawing_slash` (248-284) is
line-for-line identical on the storage side. Looks the drawing up by name, rejects a
closed drawing, computes the free entrant numbers, and attempts
`INSERT INTO entries (user_id, drawing_id, entrant_number) VALUES (%s, %s, %s)`
(line 167). `choice` stands for the index `random.choice` picks in the free list.
The function contains no `INSERT INTO entry_users` statement. -/
def joinDrawing (db : DB) (name : String) (userId : Int) (choice : Nat) : JoinMsg × DB :=
  match findRow db.drawings drawingsCols "name" (Val.str name) with
  | none => (JoinMsg.notFound, db)
  | some row =>
      let did := getCol drawingsCols "drawing_id" row
      if getCol drawingsCols "status" row == Val.str "closed" then (JoinMsg.closed, db)
      else
        let available := availableNumbers db did
        if available.isEmpty then (JoinMsg.full, db)
        else
          let n := available.getD (choice % available.length) 0
          match insertEntries db ["user_id", "drawing_id", "entrant_number"]
              [Val.int userId, did, Val.int n] with
          | Except.ok db1 => (JoinMsg.joined n, db1)
          | Except.error SqlErr.uniqueViolation => (JoinMsg.alreadyJoined, db)
          | Except.error _ => (JoinMsg.storageError, db)

/-- An open drawing named "raffle" with no entries yet: the generic success scenario
for joining. -/
def dbOpen : DB :=
  { drawings := [[Val.int 1, Val.str "raffle", Val.str "open", Val.bool false, Val.null]]
    entries := []
    entry_users := []
    archived_drawings := []
    archived_entries := []
    archived_entry_users := []
    results := []
    entriesSeq := 1
    resultsSeq := 1 }

/-- A closed drawing named "raffle" with no entries. -/
def dbClosed : DB :=
  { drawings := [[Val.int 1, Val.str "raffle", Val.str "closed", Val.bool false, Val.null]]
    entries := []
    entry_users := []
    archived_drawings := []
    archived_entries := []
    archived_entry_users := []
    results := []
    entriesSeq := 1
    resultsSeq := 1 }

/-- C1: join_drawing on an existing open drawing with every entrant number free does
not create an Entry or EntryUser row and returns no entrant number: the INSERT names
the `user_id` column, which the program's own `CREATE TABLE entries` does not
declare, so the handler lands in its generic error branch with the state unchanged. -/
theorem join_open_drawing_hits_storage_error :
    joinDrawing dbOpen "raffle" 42 0 = (JoinMsg.storageError, dbOpen) := by
  rfl

/-- C2: on any database state, for any drawing that exists and is open and whose
free-number pool is nonempty, join_drawing ends in the generic storage-error branch
and leaves the committed state (in particular the entries table) unchanged: the
success path is unreachable under the schema the program itself creates. -/
theorem join_success_path_unreachable (db : DB) (name : String) (userId : Int)
    (choice : Nat) (row : Row)
    (hfind : findRow db.drawings drawingsCols "name" (Val.str name) = some row)
    (hopen : getCol drawingsCols "status" row = Val.str "open")
    (hfree : (availableNumbers db (getCol drawingsCols "drawing_id" row)).isEmpty = false) :
    joinDrawing db name userId choice = (JoinMsg.storageError, db) := by
  unfold joinDrawing
  rw [hfind]
  simp only [hopen, hfree]
  have hcols : (["user_id", "drawing_id",
      "entrant_number"].all (fun c => entriesCols.contains c)) = false := by decide
  unfold insertEntries
  rw [hcols]
  simp

/-- Witness for C2 at a concrete state: the open one-drawing database satisfies the
hypotheses and the join attempt indeed returns the storage error. -/
theorem join_success_path_unreachable_witness :
    findRow dbOpen.drawings drawingsCols "name" (Val.str "raffle") =
        some [Val.int 1, Val.str "raffle", Val.str "open", Val.bool false, Val.null] ∧
      joinDrawing dbOpen "raffle" 42 0 = (JoinMsg.storageError, dbOpen) :=
  ⟨by rfl,
    join_success_path_unreachable dbOpen "raffle" 42 0
      [Val.int 1, Val.str "raffle", Val.str "open", Val.bool false, Val.null]
      (by rfl) (by rfl) (by rfl)⟩

/-- C5: join_drawing on a closed drawing always takes the Closed branch and leaves
the state unchanged, so no Entry row is created. -/
theorem join_closed_drawing_rejected (db : DB) (name : String) (userId : Int)
    (choice : Nat) (row : Row)
    (hfind : findRow db.drawings drawingsCols "name" (Val.str name) = some row)
    (hclosed : getCol drawingsCols "status" row = Val.str "closed") :
    joinDrawing db name userId choice = (JoinMsg.closed, db) := by
  unfold joinDrawing
  rw [hfind]
  simp [hclosed]

/-- Witness for C5: joining the concrete closed drawing is rejected with Closed. -/
theorem join_closed_drawing_rejected_witness :
    joinDrawing dbClosed "raffle" 42 0 = (JoinMsg.closed, dbClosed) :=
  join_closed_drawing_rejected dbClosed "raffle" 42 0
    [Val.int 1, Val.str "raffle", Val.str "closed", Val.bool false, Val.null]
    (by rfl) (by rfl)

/-- `INSERT INTO entry_users (entry_id, user_id) VALUES (%s, %s)`: rejected on the
composite PRIMARY KEY (entry_id, user_id), and by the FOREIGN KEY when no entries
row carries the referenced entry_id. -/
def insertEntryUsers (db : DB) (eid uid : Int) : Except SqlErr DB :=
  if db.entry_users.contains [Val.int eid, Val.int uid] then
    Except.error SqlErr.uniqueViolation
  else if db.entries.any (fun r => getCol entriesCols "entry_id" r == Val.int eid) then
    Except.ok { db with entry_users := db.entry_users ++ [[Val.int eid, Val.int uid]] }
  else Except.error SqlErr.fkViolation

/-- `SELECT MAX(entrant_number) FROM entries WHERE drawing_id = %s`: SQL MAX skips
NULLs and yields NULL on an empty set. -/
def maxEntrant (db : DB) (did : Val) : Option Int :=
  ((db.entries.filter (fun r => getCol entriesCols "drawing_id" r == did)).filterMap
      (fun r => match getCol entriesCols "entrant_number" r with
        | Val.int n => some n
        | _ => none)).foldl
    (fun acc n => match acc with
      | none => some n
      | some m => some (max m n)) none

/-- Outcomes of `add_entry`, one per message branch of the handler. -/
inductive AddMsg where
  | notFound
  | full
  | alreadyInEntry (uid : Int)
  | added
  | noNewUsers
  | dupUnique
  | errorMsg
deriving DecidableEq

/-- The user loop of bot.py `add_entry` (lines 355-375): each user not already on the
entry gets an entry_users row; the first statement the database rejects sends the
handler to its except-branch, so nothing of the transaction is committed (`db0` is
the state at transaction start). When the loop completes, `mydb.commit()` runs and
the handler reports whether any user was added. -/
def addUsersLoop (db0 db : DB) (eid : Int) (existing : List Val) (users : List Int)
    (msgs : List AddMsg) (addedAny : Bool) : List AddMsg × DB :=
  match users with
  | [] => (msgs ++ [if addedAny then AddMsg.added else AddMsg.noNewUsers], db)
  | uid :: rest =>
      if existing.contains (Val.int uid) then
        addUsersLoop db0 db eid existing rest (msgs ++ [AddMsg.alreadyInEntry uid]) addedAny
      else
        match insertEntryUsers db eid uid with
        | Except.ok db1 => addUsersLoop db0 db1 eid existing rest msgs true
        | Except.error SqlErr.uniqueViolation => (msgs ++ [AddMsg.dupUnique], db0)
        | Except.error _ => (msgs ++ [AddMsg.errorMsg], db0)

/-- bot.py `add_entry` (lines 324-383). After the existence check it counts the
drawing's entries and reports Full at 30 (line 338); otherwise it computes the
entrant number (given, or `max_entrant + 1 if max_entrant else 1`), defaults the
entrant name, inserts the entries row, and reads `cursor.lastrowid` for the
entry_users inserts — which psycopg2 on PostgreSQL reports as 0, since the value is
the row OID and modern tables have none. -/
def botAddEntry (db : DB) (drawing_name : String) (userIds : List Int)
    (entrant_number : Option Int) (entrant_name : Option String) : List AddMsg × DB :=
  match findRow db.drawings drawingsCols "name" (Val.str drawing_name) with
  | none => ([AddMsg.notFound], db)
  | some drow =>
      let did := getCol drawingsCols "drawing_id" drow
      let numEntries :=
        (db.entries.filter (fun r => getCol entriesCols "drawing_id" r == did)).length
      if 30 ≤ numEntries then ([AddMsg.full], db)
      else
        let n : Int :=
          match entrant_number with
          | some n => n
          | none =>
              match maxEntrant db did with
              | some m => if m == 0 then 1 else m + 1
              | none => 1
        let ename :=
          match entrant_name with
          | some s => s
          | none => "Entrant " ++ toString n
        match insertEntries db ["entrant_number", "entrant_name", "drawing_id"]
            [Val.int n, Val.str ename, did] with
        | Except.error SqlErr.uniqueViolation => ([AddMsg.dupUnique], db)
        | Except.error _ => ([AddMsg.errorMsg], db)
        | Except.ok db1 =>
            let entry_id : Int := 0
            let existing :=
              (db1.entry_users.filter
                  (fun r => getCol entryUsersCols "entry_id" r == Val.int entry_id)).map
                (fun r => getCol entryUsersCols "user_id" r)
            addUsersLoop db db1 entry_id existing userIds [] false

/-- app.py `add_entry_slash` (lines 692-749). Its capacity check keeps the whole
fetched row: `num_entries = cursor.fetchone()` (line 703) is a one-element tuple and
`num_entries >= 30` raises TypeError, which the outer handler turns into the generic
"Error adding entry" message, so for any existing drawing the handler stops there
with the state unchanged. -/
def appAddEntry (db : DB) (drawing_name : String) : List AddMsg × DB :=
  match findRow db.drawings drawingsCols "name" (Val.str drawing_name) with
  | none => ([AddMsg.notFound], db)
  | some _ => ([AddMsg.errorMsg], db)

/-- One entries row of the full drawing, entrant number `k + 1`. -/
def fullEntryRow (k : Nat) : Row :=
  [Val.int (Int.ofNat k + 1), Val.int (Int.ofNat k + 1), Val.null, Val.int 1, Val.null,
    Val.str "pending"]

/-- A drawing named "raffle" already holding its 30 entries. -/
def dbFull : DB :=
  { drawings := [[Val.int 1, Val.str "raffle", Val.str "open", Val.bool false, Val.null]]
    entries := (List.range 30).map fullEntryRow
    entry_users := []
    archived_drawings := []
    archived_entries := []
    archived_entry_users := []
    results := []
    entriesSeq := 31
    resultsSeq := 1 }

/-- C9: on the drawing that already holds 30 entries, bot.py's add_entry reports Full
and changes nothing, while app.py's add_entry_slash reaches its generic error branch
(its capacity check compares the fetched count row, a tuple, against 30) — also
changing nothing. Neither variant can create a 31st entry, but the app.py variant
does not fail with Full. -/
theorem add_entry_full_drawing :
    botAddEntry dbFull "raffle" [7] none none = ([AddMsg.full], dbFull) ∧
      appAddEntry dbFull "raffle" = ([AddMsg.errorMsg], dbFull) := by
  constructor
  · rfl
  · rfl

/-- Outcomes of `assign_winner`, one per message branch of the handler. -/
inductive AWMsg where
  | notFound
  | noEntry
  | invalidUser
  | testNotSaved
  | announce
  | errorMsg
deriving DecidableEq

/-- The drawing lookup of `assign_winner` (bot.py lines 471-479): the live table
first, then the archive; the handler keeps `(drawing_id, name)` of whichever row was
found. -/
def awLookup (db : DB) (drawing_name : String) : Option (Val × Val) :=
  match findRow db.drawings drawingsCols "name" (Val.str drawing_name) with
  | some r => some (getCol drawingsCols "drawing_id" r, getCol drawingsCols "name" r)
  | none =>
      match findRow db.archived_drawings archivedDrawingsCols "name" (Val.str drawing_name) with
      | some r =>
          some (getCol archivedDrawingsCols "drawing_id" r,
            getCol archivedDrawingsCols "name" r)
      | none => none

/-- The stored string of a Val, for `name.startswith("test_")`. -/
def valStr (v : Val) : String :=
  match v with
  | Val.str s => s
  | _ => ""

/-- Embedding of Python's `str.startswith`, computed on the character lists. -/
def strStartsWith (s p : String) : Bool := p.data.isPrefixOf s.data

/-- Digit run of Python's `int(...)`: all-digit, nonempty, to a natural number. -/
def digitsToNat (cs : List Char) : Option Nat :=
  if cs.isEmpty then none
  else cs.foldl (fun acc c =>
    match acc with
    | some a => if c.isDigit then some (a * 10 + (c.toNat - 48)) else none
    | none => none) (some 0)

/-- Embedding of Python's `int(str)`: optional sign then digits, `none` standing for
the ValueError it raises otherwise (as on a user mention). -/
def pyIntParse (s : String) : Option Int :=
  match s.data with
  | [] => none
  | c :: cs =>
      if c == '-' then (digitsToNat cs).map (fun n => -(Int.ofNat n))
      else (digitsToNat (c :: cs)).map Int.ofNat

/-- bot.py `assign_winner` (lines 465-520). When `winner_identifier` parses as an
integer, the source then runs the entry lookup with `drawing_id[0]` — but
`drawing_id` was already unpacked to a plain integer on line 479, so subscripting it
raises TypeError, which the inner `except ValueError` does not catch; the outer
handler reports the generic error. When it does not parse, the member converter
(modelled by `resolveMember`) supplies the winner's user id; a `test_`-prefixed
drawing then gets only the "Winner will not be saved" notice, and otherwise the
winner is announced, a results row inserted and the entry with that id set to
winner. -/
def botAssignWinner (db : DB) (resolveMember : String → Option Int)
    (drawing_name winner_identifier : String) : List AWMsg × DB :=
  match awLookup db drawing_name with
  | none => ([AWMsg.notFound], db)
  | some (did, actualName) =>
      match pyIntParse winner_identifier with
      | some _ => ([AWMsg.errorMsg], db)
      | none =>
          match resolveMember winner_identifier with
          | none => ([AWMsg.invalidUser], db)
          | some uid =>
              if strStartsWith (valStr actualName) "test_" then ([AWMsg.testNotSaved], db)
              else
                ([AWMsg.announce],
                  { db with
                    results :=
                      db.results ++ [[Val.int (Int.ofNat db.resultsSeq), did, Val.int uid]]
                    resultsSeq := db.resultsSeq + 1
                    entries := db.entries.map (fun r =>
                      if getCol entriesCols "entry_id" r == Val.int uid then
                        (entriesCols.zip r).map (fun p =>
                          if p.1 == "status" then Val.str "winner" else p.2)
                      else r) })

/-- An open `test_`-prefixed drawing with one entry (entrant 5) held by user 42. -/
def dbTest : DB :=
  { drawings := [[Val.int 1, Val.str "test_x", Val.str "open", Val.bool false, Val.null]]
    entries := [[Val.int 1, Val.int 5, Val.null, Val.int 1, Val.null, Val.str "pending"]]
    entry_users := [[Val.int 1, Val.int 42]]
    archived_drawings := []
    archived_entries := []
    archived_entry_users := []
    results := []
    entriesSeq := 2
    resultsSeq := 1 }

/-- A member converter that resolves every mention to user 42. -/
def resolveTo42 : String → Option Int := fun _ => some 42

/-- C6 counterexample: on the concrete `test_` drawing the handler emits only the
"Winner will not be saved" notice — the winner is never announced, so the claim's
"announces the winner" is false as stated (the state is indeed unchanged). -/
theorem assign_winner_test_no_announcement :
    botAssignWinner dbTest resolveTo42 "test_x" "<@42>" = ([AWMsg.testNotSaved], dbTest) ∧
      ¬ AWMsg.announce ∈ (botAssignWinner dbTest resolveTo42 "test_x" "<@42>").1 := by
  have h : botAssignWinner dbTest resolveTo42 "test_x" "<@42>" =
      ([AWMsg.testNotSaved], dbTest) := by decide
  refine ⟨h, ?_⟩
  rw [h]
  simp

/-- C6 amended: on any state, for any drawing whose (live-then-archived) lookup
succeeds with a `test_`-prefixed name, assign_winner persists nothing — the state is
returned unchanged, so no Result row is inserted and no entry status changes — and
no winner announcement is emitted on any input path. -/
theorem assign_winner_test_persists_nothing (db : DB) (resolveMember : String → Option Int)
    (drawing_name winner_identifier : String) (did actualName : Val)
    (hfind : awLookup db drawing_name = some (did, actualName))
    (htest : strStartsWith (valStr actualName) "test_" = true) :
    (botAssignWinner db resolveMember drawing_name winner_identifier).2 = db ∧
      ¬ AWMsg.announce ∈ (botAssignWinner db resolveMember drawing_name winner_identifier).1 := by
  unfold botAssignWinner
  rw [hfind]
  cases pyIntParse winner_identifier with
  | some n => simp
  | none =>
      cases resolveMember winner_identifier with
      | none => simp
      | some uid => simp [htest]

/-- Witness for the amended C6 theorem at the concrete test drawing. -/
theorem assign_winner_test_persists_nothing_witness :
    (botAssignWinner dbTest resolveTo42 "test_x" "5").2 = dbTest ∧
      ¬ AWMsg.announce ∈ (botAssignWinner dbTest resolveTo42 "test_x" "5").1 :=
  assign_winner_test_persists_nothing dbTest resolveTo42 "test_x" "5"
    (Val.int 1) (Val.str "test_x") (by rfl) (by decide)

/-- Outcomes of `delete_drawing` after the confirmation prompt. -/
inductive DelMsg where
  | deleted
  | notFound
  | cancelled
  | timedOut
  | errorMsg
deriving DecidableEq

/-- The confirmation the handler waits for: an explicit yes or no within 30 seconds,
or the timeout. -/
inductive Confirm where
  | yes
  | no
  | timeout
deriving DecidableEq

/-- True when `DELETE FROM drawings WHERE name = %s` would remove a row that some
entries or results row still references through its FOREIGN KEY (neither declares
ON DELETE CASCADE), which makes the statement fail. -/
def deleteRefCheck (db : DB) (drawing_name : String) : Bool :=
  (db.drawings.filter (fun r => getCol drawingsCols "name" r == Val.str drawing_name)).any
    (fun r =>
      db.entries.any (fun e =>
        getCol entriesCols "drawing_id" e == getCol drawingsCols "drawing_id" r) ||
      db.results.any (fun e =>
        getCol resultsCols "drawing_id" e == getCol drawingsCols "drawing_id" r))

/-- bot.py `delete_drawing` (lines 624-652); app.py `delete_drawing_text` (1378-1406)
is identical. After the yes/no prompt (no and timeout cancel), the handler runs the
single statement `DELETE FROM drawings WHERE name = %s`: no entries, entry_users or
results rows are deleted, and when any of them still references the drawing the
statement fails on the foreign key and the handler reports the generic error with
nothing removed. -/
def deleteDrawingCmd (db : DB) (drawing_name : String) (answer : Confirm) :
    List DelMsg × DB :=
  match answer with
  | Confirm.timeout => ([DelMsg.timedOut], db)
  | Confirm.no => ([DelMsg.cancelled], db)
  | Confirm.yes =>
      if deleteRefCheck db drawing_name then ([DelMsg.errorMsg], db)
      else
        let kept :=
          db.drawings.filter (fun r => !(getCol drawingsCols "name" r == Val.str drawing_name))
        if kept.length < db.drawings.length then
          ([DelMsg.deleted], { db with drawings := kept })
        else ([DelMsg.notFound], db)

/-- A drawing named "raffle" with one entry (held by user 42): the generic state in
which a deletion should cascade. -/
def dbDel : DB :=
  { drawings := [[Val.int 1, Val.str "raffle", Val.str "open", Val.bool false, Val.null]]
    entries := [[Val.int 1, Val.int 5, Val.null, Val.int 1, Val.null, Val.str "pending"]]
    entry_users := [[Val.int 1, Val.int 42]]
    archived_drawings := []
    archived_entries := []
    archived_entry_users := []
    results := []
    entriesSeq := 2
    resultsSeq := 1 }

/-- C10 counterexample: on the concrete drawing with one entry, the confirmed delete
removes nothing at all — the single DELETE on drawings fails on the entries foreign
key — so the claim that the Drawing and its Entries and EntryUsers are removed is
false as stated (the drawing row itself is still present). -/
theorem delete_drawing_with_entry_removes_nothing :
    deleteDrawingCmd dbDel "raffle" Confirm.yes = ([DelMsg.errorMsg], dbDel) ∧
      dbDel.drawings ≠ [] := by
  constructor
  · rfl
  · intro h
    simp [dbDel] at h

/-- C10 amended: a confirmed delete issues one DELETE on the drawings table only.
When some entries or results row still references a matching drawing, the statement
fails and the state is unchanged; otherwise only the matching drawings rows are
removed while the entries, entry_users and results tables are untouched (there is no
cascade). -/
theorem delete_drawing_only_drawings_row (db : DB) (drawing_name : String) :
    (deleteRefCheck db drawing_name = true →
      deleteDrawingCmd db drawing_name Confirm.yes = ([DelMsg.errorMsg], db)) ∧
    (deleteRefCheck db drawing_name = false →
      ((deleteDrawingCmd db drawing_name Confirm.yes).2.drawings =
          db.drawings.filter
            (fun r => !(getCol drawingsCols "name" r == Val.str drawing_name)) ∧
        (deleteDrawingCmd db drawing_name Confirm.yes).2.entries = db.entries ∧
        (deleteDrawingCmd db drawing_name Confirm.yes).2.entry_users = db.entry_users ∧
        (deleteDrawingCmd db drawing_name Confirm.yes).2.results = db.results)) := by
  constructor
  · intro h
    simp [deleteDrawingCmd, h]
  · intro h
    simp only [deleteDrawingCmd, h, Bool.false_eq_true, if_false]
    by_cases hk :
        (db.drawings.filter
            (fun r => !(getCol drawingsCols "name" r == Val.str drawing_name))).length <
          db.drawings.length
    · simp [hk]
    · have hle := List.length_filter_le
        (fun r => !(getCol drawingsCols "name" r == Val.str drawing_name)) db.drawings
      have hlen :
          (db.drawings.filter
              (fun r => !(getCol drawingsCols "name" r == Val.str drawing_name))).length =
            db.drawings.length := by omega
      have hfe :
          db.drawings.filter
              (fun r => !(getCol drawingsCols "name" r == Val.str drawing_name)) =
            db.drawings :=
        List.filter_eq_self.mpr (List.filter_length_eq_length.mp hlen)
      simp [hk, hfe]

/-- Witness for the amended C10 theorem: deleting a drawing nothing references
removes exactly its drawings row and leaves the other tables alone. -/
theorem delete_drawing_only_drawings_row_witness :
    deleteRefCheck dbOpen "raffle" = false ∧
      (deleteDrawingCmd dbOpen "raffle" Confirm.yes).2.drawings = [] ∧
      (deleteDrawingCmd dbOpen "raffle" Confirm.yes).2.entries = dbOpen.entries := by
  refine ⟨by decide, ?_, ?_⟩
  · have h := (delete_drawing_only_drawings_row dbOpen "raffle").2 (by decide)
    rw [h.1]
    rfl
  · exact ((delete_drawing_only_drawings_row dbOpen "raffle").2 (by decide)).2.1

/-- Outcomes of `archive_drawing` / `restore_drawing`. -/
inductive ArcMsg where
  | notFound
  | archivedOk
  | notFoundArchived
  | restoredOk
  | errorRollback
deriving DecidableEq

/-- The drawings rows `archive_drawing` would copy (`... FROM drawings WHERE
drawing_id = %s`). -/
def archDRows (db : DB) (did : Val) : Table :=
  db.drawings.filter (fun r => getCol drawingsCols "drawing_id" r == did)

/-- The entries rows `archive_drawing` would copy. -/
def archERows (db : DB) (did : Val) : Table :=
  db.entries.filter (fun r => getCol entriesCols "drawing_id" r == did)

/-- `SELECT entry_id FROM entries WHERE drawing_id = %s`. -/
def archEids (db : DB) (did : Val) : List Val :=
  (archERows db did).map (fun r => getCol entriesCols "entry_id" r)

/-- The entry_users rows `archive_drawing` would copy (entry_id IN the drawing's
entry ids). -/
def archEuRows (db : DB) (did : Val) : Table :=
  db.entry_users.filter
    (fun r => (archEids db did).contains (getCol entryUsersCols "entry_id" r))

/-- bot.py `archive_drawing` (lines 654-689); app.py (1410-1472) runs the same
statements. After the existence check, the first statement of the move is
`INSERT INTO archived_drawings SELECT * FROM drawings WHERE drawing_id = %s`, which
supplies the five drawings columns to the three-column archived_drawings table; the
database rejects a statement with more expressions than target columns, so the
handler reports the error and calls `mydb.rollback()`, and the remaining copy and
delete statements (written out below for completeness) are never reached. -/
def archiveDrawing (db : DB) (drawing_name : String) : ArcMsg × DB :=
  match findRow db.drawings drawingsCols "name" (Val.str drawing_name) with
  | none => (ArcMsg.notFound, db)
  | some drow =>
      let did := getCol drawingsCols "drawing_id" drow
      if archivedDrawingsCols.length < drawingsCols.length then (ArcMsg.errorRollback, db)
      else if (archDRows db did).any (fun r => db.archived_drawings.any (fun t =>
          getCol archivedDrawingsCols "drawing_id" t == getCol drawingsCols "drawing_id" r))
        then (ArcMsg.errorRollback, db)
      else if (archERows db did).any (fun r => db.archived_entries.any (fun t =>
          getCol archivedEntriesCols "entry_id" t == getCol entriesCols "entry_id" r))
        then (ArcMsg.errorRollback, db)
      else if (archEuRows db did).any (fun r => db.archived_entry_users.contains r)
        then (ArcMsg.errorRollback, db)
      else if db.results.any (fun r => getCol resultsCols "drawing_id" r == did)
        then (ArcMsg.errorRollback, db)
      else
        (ArcMsg.archivedOk,
          { db with
            drawings :=
              db.drawings.filter (fun r => !(getCol drawingsCols "drawing_id" r == did))
            entries :=
              db.entries.filter (fun r => !(getCol entriesCols "drawing_id" r == did))
            entry_users := db.entry_users.filter
              (fun r => !((archEids db did).contains (getCol entryUsersCols "entry_id" r)))
            archived_drawings := db.archived_drawings ++ archDRows db did
            archived_entries := db.archived_entries ++ archERows db did
            archived_entry_users := db.archived_entry_users ++ archEuRows db did })

/-- The archived_drawings rows `restore_drawing` copies back. -/
def restoreDRows (db : DB) (did : Val) : Table :=
  db.archived_drawings.filter (fun r => getCol archivedDrawingsCols "drawing_id" r == did)

/-- The archived_entries rows `restore_drawing` copies back. -/
def restoreERows (db : DB) (did : Val) : Table :=
  db.archived_entries.filter (fun r => getCol archivedEntriesCols "drawing_id" r == did)

/-- `SELECT entry_id FROM archived_entries WHERE drawing_id = %s`. -/
def restoreEids (db : DB) (did : Val) : List Val :=
  (restoreERows db did).map (fun r => getCol archivedEntriesCols "entry_id" r)

/-- The archived_entry_users rows selected by entry_id IN the drawing's archived
entry ids. -/
def restoreEuRows (db : DB) (did : Val) : Table :=
  db.archived_entry_users.filter
    (fun r => (restoreEids db did).contains (getCol entryUsersCols "entry_id" r))

/-- UNIQUE/PRIMARY KEY conflict of `INSERT INTO drawings SELECT * FROM
archived_drawings ...` against the existing live drawings (drawing_id key, name
UNIQUE). -/
def restoreDConflict (db : DB) (did : Val) : Bool :=
  (restoreDRows db did).any (fun r => db.drawings.any (fun t =>
    getCol drawingsCols "drawing_id" t == getCol archivedDrawingsCols "drawing_id" r ||
    getCol drawingsCols "name" t == getCol archivedDrawingsCols "name" r))

/-- PRIMARY KEY conflict of `INSERT INTO entries SELECT * FROM archived_entries ...`
against the existing live entries. -/
def restoreEConflict (db : DB) (did : Val) : Bool :=
  (restoreERows db did).any (fun r => db.entries.any (fun t =>
    getCol entriesCols "entry_id" t == getCol archivedEntriesCols "entry_id" r))

/-- PRIMARY KEY conflict of the entry-user statement of `restore_drawing`: the
source inserts into `archived_entry_users` selecting from `archived_entry_users`
itself (bot.py line 711, app.py 1497), so every selected row collides with the copy
already present. -/
def restoreEuConflict (db : DB) (did : Val) : Bool :=
  (restoreEuRows db did).any (fun r => db.archived_entry_users.contains r)

/-- bot.py `restore_drawing` (lines 691-726); app.py `restore_drawing_slash`
(1476-1512) runs the same statements. The drawing insert lists three expressions for
the five drawings columns, so `is_archived` and `time_limit_hours` take their
defaults (FALSE and NULL); the entry-user statement inserts into
`archived_entry_users` from `archived_entry_users` itself, which violates that
table's primary key whenever the drawing has any entry-user row, making the handler
roll the whole move back; when it proceeds, no row is ever written into the live
`entry_users` table. `restoreSuccessState` is the committed state after the full
statement sequence of a restore that reached `mydb.commit()`. -/
def restoreSuccessState (db : DB) (did : Val) : DB :=
  { db with
    drawings :=
      db.drawings ++ (restoreDRows db did).map (fun r => r ++ [Val.bool false, Val.null])
    entries := db.entries ++ restoreERows db did
    archived_drawings := db.archived_drawings.filter
      (fun r => !(getCol archivedDrawingsCols "drawing_id" r == did))
    archived_entries := db.archived_entries.filter
      (fun r => !(getCol archivedEntriesCols "drawing_id" r == did))
    archived_entry_users :=
      (db.archived_entry_users ++ restoreEuRows db did).filter
        (fun r => !((restoreEids db did).contains (getCol entryUsersCols "entry_id" r))) }

def restoreDrawing (db : DB) (drawing_name : String) : ArcMsg × DB :=
  match findRow db.archived_drawings archivedDrawingsCols "name" (Val.str drawing_name) with
  | none => (ArcMsg.notFoundArchived, db)
  | some drow =>
      let did := getCol archivedDrawingsCols "drawing_id" drow
      if restoreDConflict db did then (ArcMsg.errorRollback, db)
      else if restoreEConflict db did then (ArcMsg.errorRollback, db)
      else if restoreEuConflict db did then (ArcMsg.errorRollback, db)
      else (ArcMsg.restoredOk, restoreSuccessState db did)

/-- An archived drawing "d" with one archived entry (entrant 5) and one archived
entry-user row (user 42); the live tables are empty. -/
def dbArch : DB :=
  { drawings := []
    entries := []
    entry_users := []
    archived_drawings := [[Val.int 1, Val.str "d", Val.str "open"]]
    archived_entries := [[Val.int 1, Val.int 5, Val.null, Val.int 1, Val.null, Val.str "active"]]
    archived_entry_users := [[Val.int 1, Val.int 42]]
    results := []
    entriesSeq := 2
    resultsSeq := 1 }

/-- C3: the archive/restore round trip never takes place. On the live drawing with
one entry and one entry-user, archive_drawing fails at its very first insert (five
expressions into the three-column archived_drawings) and rolls back, so the
immediate restore_drawing reports the archived drawing as not found; and even on a
state where the archive tables are populated, restore_drawing fails whenever the
drawing has an entry-user row, because its entry-user insert targets
archived_entry_users itself and collides with that table's primary key. -/
theorem archive_restore_round_trip_broken :
    archiveDrawing dbDel "raffle" = (ArcMsg.errorRollback, dbDel) ∧
      restoreDrawing dbDel "raffle" = (ArcMsg.notFoundArchived, dbDel) ∧
      restoreDrawing dbArch "d" = (ArcMsg.errorRollback, dbArch) := by
  refine ⟨rfl, rfl, rfl⟩

/-- A row from one side of the live/archive pair must be on exactly one side. -/
def inExactlyOne (a b : Bool) : Prop := (a = true ∧ b = false) ∨ (a = false ∧ b = true)

/-- Some live drawings row carries this drawing_id. -/
def liveDrawingHas (db : DB) (did : Val) : Bool :=
  db.drawings.any (fun r => getCol drawingsCols "drawing_id" r == did)

/-- Some archived_drawings row carries this drawing_id. -/
def archDrawingHas (db : DB) (did : Val) : Bool :=
  db.archived_drawings.any (fun r => getCol archivedDrawingsCols "drawing_id" r == did)

/-- Some live entries row carries this entry_id. -/
def liveEntryHas (db : DB) (eid : Val) : Bool :=
  db.entries.any (fun r => getCol entriesCols "entry_id" r == eid)

/-- Some archived_entries row carries this entry_id. -/
def archEntryHas (db : DB) (eid : Val) : Bool :=
  db.archived_entries.any (fun r => getCol archivedEntriesCols "entry_id" r == eid)

/-- No archived entry outside the drawing shares an entry_id with the drawing's
archived entries (the cross-drawing id cleanliness the SERIAL key provides). -/
def restoreEidsClean (db : DB) (did : Val) : Bool :=
  (db.archived_entries.filter
      (fun r => !(getCol archivedEntriesCols "drawing_id" r == did))).all
    (fun r => !((restoreEids db did).contains (getCol archivedEntriesCols "entry_id" r)))

lemma archive_preserves_state (db : DB) (drawing_name : String) :
    (archiveDrawing db drawing_name).2 = db := by
  unfold archiveDrawing
  cases h : findRow db.drawings drawingsCols "name" (Val.str drawing_name) with
  | none => rfl
  | some drow => rfl

lemma any_filter_not {α : Type} (p : α → Bool) (l : List α) :
    (l.filter (fun r => !(p r))).any p = false := by
  cases hany : (l.filter (fun r => !(p r))).any p with
  | false => rfl
  | true =>
      rcases List.any_eq_true.mp hany with ⟨r, hmem, hp⟩
      rcases List.mem_filter.mp hmem with ⟨_, hnp⟩
      rw [hp] at hnp
      cases hnp

lemma getCol_draw_did (r : Row) : getCol drawingsCols "drawing_id" r = r.getD 0 Val.null := rfl

lemma getCol_arch_did (r : Row) :
    getCol archivedDrawingsCols "drawing_id" r = r.getD 0 Val.null := rfl

lemma getCol_entries_eid (r : Row) : getCol entriesCols "entry_id" r = r.getD 0 Val.null := rfl

lemma getCol_archE_eid (r : Row) :
    getCol archivedEntriesCols "entry_id" r = r.getD 0 Val.null := rfl

/-- C4: archive_drawing always rolls back, returning the committed state unchanged;
and after restore_drawing the drawing row, each of its archived entry rows and each
of its archived entry-user rows sits in exactly one of the live and archived tables
— live on the success path, archived on every rollback path, never both, never
neither. -/
theorem archive_restore_records_in_exactly_one_place
    (db : DB) (name : String) (drow : Row) (did : Val)
    (hfind : findRow db.archived_drawings archivedDrawingsCols "name" (Val.str name) = some drow)
    (hdid : getCol archivedDrawingsCols "drawing_id" drow = did)
    (hlen : 0 < drow.length)
    (hld : liveDrawingHas db did = false)
    (hle : ((restoreEids db did).all fun e => !(liveEntryHas db e)) = true)
    (hlu : ((restoreEuRows db did).all fun r => !(db.entry_users.contains r)) = true)
    (hclean : restoreEidsClean db did = true) :
    (archiveDrawing db name).2 = db ∧
      inExactlyOne (liveDrawingHas (restoreDrawing db name).2 did)
        (archDrawingHas (restoreDrawing db name).2 did) ∧
      (∀ e ∈ restoreEids db did,
        inExactlyOne (liveEntryHas (restoreDrawing db name).2 e)
          (archEntryHas (restoreDrawing db name).2 e)) ∧
      (∀ r ∈ restoreEuRows db did,
        inExactlyOne ((restoreDrawing db name).2.entry_users.contains r)
          ((restoreDrawing db name).2.archived_entry_users.contains r)) := by
  have hmem : drow ∈ db.archived_drawings := List.mem_of_find?_eq_some hfind
  have hdrow_pred : (getCol archivedDrawingsCols "drawing_id" drow == did) = true := by
    rw [hdid]; exact beq_self_eq_true did
  have harchHas : archDrawingHas db did = true := by
    unfold archDrawingHas
    exact List.any_eq_true.mpr ⟨drow, hmem, hdrow_pred⟩
  have harchE : ∀ e ∈ restoreEids db did, archEntryHas db e = true := by
    intro e he
    rcases List.mem_map.mp he with ⟨r, hr, hre⟩
    refine List.any_eq_true.mpr ⟨r, (List.mem_filter.mp hr).1, ?_⟩
    rw [hre]; exact beq_self_eq_true e
  have harchEu : ∀ r ∈ restoreEuRows db did, db.archived_entry_users.contains r = true := by
    intro r hr
    have hmem2 : r ∈ db.archived_entry_users := (List.mem_filter.mp hr).1
    simpa using hmem2
  -- characterize the post-state of restore
  have hpost : (restoreDrawing db name).2 = db ∨
      ((restoreDrawing db name).2 = restoreSuccessState db did ∧ restoreEuRows db did = []) := by
    unfold restoreDrawing
    rw [hfind]
    simp only [hdid]
    by_cases h1 : restoreDConflict db did
    · left; simp [h1]
    · by_cases h2 : restoreEConflict db did
      · left; simp [h1, h2]
      · by_cases h3 : restoreEuConflict db did
        · left; simp [h1, h2, h3]
        · right
          refine ⟨by simp [h1, h2, h3], ?_⟩
          cases hrows : restoreEuRows db did with
          | nil => rfl
          | cons r rest =>
              exfalso
              apply h3
              unfold restoreEuConflict
              rw [hrows]
              refine List.any_eq_true.mpr ⟨r, List.mem_cons_self r rest, ?_⟩
              have hmem3 : r ∈ restoreEuRows db did := by
                rw [hrows]; exact List.mem_cons_self r rest
              have hmem4 : r ∈ db.archived_entry_users := (List.mem_filter.mp hmem3).1
              simpa using hmem4
  refine ⟨archive_preserves_state db name, ?_, ?_, ?_⟩
  · rcases hpost with h | ⟨hs, _⟩
    · rw [h]
      exact Or.inr ⟨hld, harchHas⟩
    · rw [hs]
      left
      constructor
      · refine List.any_eq_true.mpr ⟨drow ++ [Val.bool false, Val.null], ?_, ?_⟩
        · refine List.mem_append_right _ (List.mem_map.mpr ⟨drow, ?_, rfl⟩)
          exact List.mem_filter.mpr ⟨hmem, hdrow_pred⟩
        · rw [getCol_draw_did, List.getD_append _ _ _ _ hlen, ← getCol_arch_did, hdid]
          exact beq_self_eq_true did
      · exact any_filter_not _ _
  · intro e he
    rcases hpost with h | ⟨hs, _⟩
    · rw [h]
      refine Or.inr ⟨?_, harchE e he⟩
      have h5 := List.all_eq_true.mp hle e he
      simpa using h5
    · rw [hs]
      left
      constructor
      · rcases List.mem_map.mp he with ⟨r, hr, hre⟩
        refine List.any_eq_true.mpr ⟨r, List.mem_append_right _ hr, ?_⟩
        rw [getCol_entries_eid, ← getCol_archE_eid, hre]
        exact beq_self_eq_true e
      · cases hany : archEntryHas (restoreSuccessState db did) e with
        | false => rfl
        | true =>
            exfalso
            rcases List.any_eq_true.mp hany with ⟨r, hmemf, hpe⟩
            have hclean2 := List.all_eq_true.mp hclean r hmemf
            have hcontains : (restoreEids db did).contains
                (getCol archivedEntriesCols "entry_id" r) = false := by
              simpa using hclean2
            have heq : getCol archivedEntriesCols "entry_id" r = e := by
              exact eq_of_beq hpe
            rw [heq] at hcontains
            have : (restoreEids db did).contains e = true := by simpa using he
            rw [this] at hcontains
            cases hcontains
  · intro r hr
    rcases hpost with h | ⟨hs, hempty⟩
    · rw [h]
      refine Or.inr ⟨?_, harchEu r hr⟩
      have h5 := List.all_eq_true.mp hlu r hr
      simpa using h5
    · rw [hempty] at hr
      cases hr

/-- Witness for C4 at a concrete state: the archived drawing with an entry-user row
(the restore rolls back there) satisfies every hypothesis. -/
theorem archive_restore_records_in_exactly_one_place_witness :
    (archiveDrawing dbArch "d").2 = dbArch ∧
      inExactlyOne (liveDrawingHas (restoreDrawing dbArch "d").2 (Val.int 1))
        (archDrawingHas (restoreDrawing dbArch "d").2 (Val.int 1)) ∧
      (∀ e ∈ restoreEids dbArch (Val.int 1),
        inExactlyOne (liveEntryHas (restoreDrawing dbArch "d").2 e)
          (archEntryHas (restoreDrawing dbArch "d").2 e)) ∧
      (∀ r ∈ restoreEuRows dbArch (Val.int 1),
        inExactlyOne ((restoreDrawing dbArch "d").2.entry_users.contains r)
          ((restoreDrawing dbArch "d").2.archived_entry_users.contains r)) :=
  archive_restore_records_in_exactly_one_place dbArch "d"
    [Val.int 1, Val.str "d", Val.str "open"] (Val.int 1)
    (by rfl) (by rfl) (by decide) (by decide) (by decide) (by decide) (by decide)

/-!
The periodic sweep. app.py `check_drawings` (lines 1734-1796) is the superset
variant: capacity closure, winner auto-resolution and time-limit closure (bot.py
lines 818-863 has the first two branches only and never reads start_time). The
drawings rows are modelled as typed records carrying the columns the sweep reads —
including `start_time`, which the sweep and `start_drawing` use against the deployed
store (the CREATE TABLE ... IF NOT EXISTS statements do not recreate existing
tables, and the claim's premise presupposes drawings whose start_time is set).
Times are seconds as integers; `now` stands for `datetime.datetime.now()`.
-/

/-- A drawings row as the sweep reads it. -/
structure SDrawing where
  id : Nat
  dname : String
  status : String
  time_limit_hours : Option Int
  start_time : Option Int
deriving DecidableEq

/-- An entries row as the sweep reads it. -/
structure SEntry where
  id : Nat
  drawing_id : Nat
  status : String
deriving DecidableEq

/-- The store as the sweep touches it. -/
structure SState where
  drawings : List SDrawing
  entries : List SEntry
  results : List (Nat × Nat)
deriving DecidableEq

/-- Observable actions of one sweep invocation. -/
inductive SwEvent where
  | closedCap (did : Nat)
  | winnerAnnounced (did eid : Nat)
  | winnerError (did : Nat)
  | closedTimeout (did : Nat)
  | crashed
deriving DecidableEq

/-- `UPDATE drawings SET status = 'closed' WHERE drawing_id = %s`. -/
def setDrawingClosed (s : SState) (did : Nat) : SState :=
  { s with drawings := s.drawings.map (fun d =>
      if d.id == did then { d with status := "closed" } else d) }

/-- `UPDATE entries SET status = 'winner' WHERE entry_id = %s`. -/
def setEntryWinner (s : SState) (eid : Nat) : SState :=
  { s with entries := s.entries.map (fun e =>
      if e.id == eid then { e with status := "winner" } else e) }

/-- `INSERT INTO results (drawing_id, winner_id) VALUES (%s, %s)`. -/
def addResult (s : SState) (did eid : Nat) : SState :=
  { s with results := s.results ++ [(did, eid)] }

/-- `SELECT COUNT(*) FROM entries WHERE drawing_id = %s`. -/
def entryCount (s : SState) (did : Nat) : Nat :=
  (s.entries.filter (fun e => e.drawing_id == did)).length

/-- `SELECT COUNT(*) ... AND status = 'active'`. -/
def activeCount (s : SState) (did : Nat) : Nat :=
  (s.entries.filter (fun e => e.drawing_id == did && e.status == "active")).length

/-- `SELECT COUNT(*) ... AND status IN ('inactive', 'eliminated')`. -/
def inactiveCount (s : SState) (did : Nat) : Nat :=
  (s.entries.filter (fun e =>
    e.drawing_id == did && (e.status == "inactive" || e.status == "eliminated"))).length

/-- `SELECT entry_id FROM entries WHERE drawing_id = %s AND status = 'active'`
followed by `fetchone()[0]`. -/
def firstActive (s : SState) (did : Nat) : Option Nat :=
  (s.entries.find? (fun e => e.drawing_id == did && e.status == "active")).map
    (fun e => e.id)

/-- `SELECT time_limit_hours FROM drawings WHERE drawing_id = %s`: the row, if any,
holding the possibly-NULL limit. -/
def timeLimitOf (s : SState) (did : Nat) : Option (Option Int) :=
  (s.drawings.find? (fun d => d.id == did)).map (fun d => d.time_limit_hours)

/-- What one loop iteration of the sweep leaves behind. -/
structure BodyOut where
  st : SState
  ev : List SwEvent
  ch : Option Unit
  crashed : Bool
deriving DecidableEq

/-- One iteration of the `for drawing_id, name, start_time in open_drawings` loop of
app.py `check_drawings`. The local `channel` (here `ch`) is assigned only inside the
capacity branch and the time-limit branch; the winner branch sends on it before the
Result insert, so with `ch` still unbound that send raises, the inner handler prints
the error, and neither the results row nor the winner status is written. The
time-limit branch runs outside any handler: when the fetched row holds a NULL limit,
`time_limit_hours[0] * 60 * 60` raises TypeError and the whole task invocation
aborts (`crashed`). -/
def capStep (d : SDrawing) (st : SState) (ch : Option Unit) :
    SState × List SwEvent × Option Unit :=
  if 30 ≤ entryCount st d.id then
    (setDrawingClosed st d.id, [SwEvent.closedCap d.id], some ())
  else (st, [], ch)

def winStep (d : SDrawing) (st : SState) (ch : Option Unit) : SState × List SwEvent :=
  if activeCount st d.id == 1 && decide (0 < inactiveCount st d.id) then
    match firstActive st d.id with
    | some eid =>
        match ch with
        | some _ =>
            (addResult (setEntryWinner st eid) d.id eid, [SwEvent.winnerAnnounced d.id eid])
        | none => (st, [SwEvent.winnerError d.id])
    | none => (st, [SwEvent.winnerError d.id])
  else (st, [])

def timeStep (now : Int) (d : SDrawing) (st : SState) (ch : Option Unit) : BodyOut :=
  match d.start_time with
  | none => { st := st, ev := [], ch := ch, crashed := false }
  | some t =>
      match timeLimitOf st d.id with
      | none => { st := st, ev := [], ch := ch, crashed := false }
      | some none => { st := st, ev := [SwEvent.crashed], ch := ch, crashed := true }
      | some (some h) =>
          if h * 3600 < now - t then
            { st := setDrawingClosed st d.id, ev := [SwEvent.closedTimeout d.id],
              ch := some (), crashed := false }
          else { st := st, ev := [], ch := ch, crashed := false }

def sweepBody (now : Int) (d : SDrawing) (st0 : SState) (ch0 : Option Unit) : BodyOut :=
  let cap := capStep d st0 ch0
  let win := winStep d cap.1 cap.2.2
  let out := timeStep now d win.1 cap.2.2
  { st := out.st, ev := cap.2.1 ++ win.2 ++ out.ev, ch := out.ch, crashed := out.crashed }

/-- The sweep loop over the snapshot of open drawings; a crash aborts the remaining
iterations but keeps the state changes committed so far. -/
def sweepGo (now : Int) (ds : List SDrawing) (st : SState) (ch : Option Unit)
    (acc : List SwEvent) : List SwEvent × SState :=
  match ds with
  | [] => (acc, st)
  | d :: rest =>
      if (sweepBody now d st ch).crashed then
        (acc ++ (sweepBody now d st ch).ev, (sweepBody now d st ch).st)
      else
        sweepGo now rest (sweepBody now d st ch).st (sweepBody now d st ch).ch
          (acc ++ (sweepBody now d st ch).ev)

/-- app.py `check_drawings`: select the open drawings, then run the loop with the
`channel` local still unbound. -/
def checkDrawings (now : Int) (s : SState) : List SwEvent × SState :=
  sweepGo now (s.drawings.filter (fun d => d.status == "open")) s none []

/-- The open drawing with exactly one active and one eliminated entry: the state in
which the sweep should auto-resolve the winner. -/
def sweepWinnerState : SState :=
  { drawings := [SDrawing.mk 1 "r" "open" none none]
    entries := [SEntry.mk 1 1 "active", SEntry.mk 2 1 "eliminated"]
    results := [] }

/-- C8: on the open drawing with exactly one active entry and one eliminated entry
(and fewer than 30 entries, so the capacity branch did not run), the sweep's winner
branch fails on the unbound `channel` local before the Result insert: no results row
is recorded, the active entry keeps status active, and the state is returned
unchanged. -/
theorem sweep_winner_branch_records_nothing :
    checkDrawings 0 sweepWinnerState = ([SwEvent.winnerError 1], sweepWinnerState) := by
  rfl

/-- The fields of a drawings row the sweep never writes (everything but status). -/
def stripS (d : SDrawing) : Nat × String × Option Int × Option Int :=
  (d.id, d.dname, d.time_limit_hours, d.start_time)

/-- `SELECT * FROM drawings WHERE drawing_id = %s` with `fetchone()`. -/
def findDrawingRow (s : SState) (i : Nat) : Option SDrawing :=
  s.drawings.find? (fun d => d.id == i)

lemma strip_map_closed (l : List SDrawing) (j : Nat) :
    (l.map (fun d => if d.id == j then { d with status := "closed" } else d)).map stripS =
      l.map stripS := by
  rw [List.map_map]
  refine List.map_congr_left ?_
  intro d _
  by_cases hd : d.id = j
  · simp [hd, stripS]
  · simp [hd, stripS]

lemma setDrawingClosed_strip (s : SState) (j : Nat) :
    (setDrawingClosed s j).drawings.map stripS = s.drawings.map stripS :=
  strip_map_closed s.drawings j

lemma capStep_strip (d : SDrawing) (st : SState) (ch : Option Unit) :
    ((capStep d st ch).1).drawings.map stripS = st.drawings.map stripS := by
  unfold capStep
  split
  · exact setDrawingClosed_strip st d.id
  · rfl

lemma winStep_drawings (d : SDrawing) (st : SState) (ch : Option Unit) :
    ((winStep d st ch).1).drawings = st.drawings := by
  unfold winStep
  split
  · split
    · split
      · rfl
      · rfl
    · rfl
  · rfl

lemma timeStep_strip (now : Int) (d : SDrawing) (st : SState) (ch : Option Unit) :
    ((timeStep now d st ch).st).drawings.map stripS = st.drawings.map stripS := by
  unfold timeStep
  split
  · rfl
  · split
    · rfl
    · rfl
    · split
      · exact setDrawingClosed_strip st d.id
      · rfl

lemma sweepBody_strip (now : Int) (d : SDrawing) (st : SState) (ch : Option Unit) :
    ((sweepBody now d st ch).st).drawings.map stripS = st.drawings.map stripS := by
  unfold sweepBody
  rw [timeStep_strip, winStep_drawings, capStep_strip]

lemma sweepGo_strip (now : Int) (ds : List SDrawing) (st : SState) (ch : Option Unit)
    (acc : List SwEvent) :
    ((sweepGo now ds st ch acc).2).drawings.map stripS = st.drawings.map stripS := by
  induction ds generalizing st ch acc with
  | nil => rfl
  | cons d rest ih =>
      unfold sweepGo
      split
      · exact sweepBody_strip now d st ch
      · rw [ih]
        exact sweepBody_strip now d st ch

lemma find?_of_strip_eq (l₁ l₂ : List SDrawing) (i : Nat)
    (hs : l₁.map stripS = l₂.map stripS) :
    (l₁.find? (fun d => d.id == i)).map stripS =
      (l₂.find? (fun d => d.id == i)).map stripS := by
  induction l₁ generalizing l₂ with
  | nil =>
      cases l₂ with
      | nil => rfl
      | cons b tl => cases hs
  | cons a tl ih =>
      cases l₂ with
      | nil => cases hs
      | cons b tl2 =>
          have h1 : stripS a = stripS b := by
            have := congrArg (fun l => l.headD (stripS a)) hs
            simpa using this
          have h2 : tl.map stripS = tl2.map stripS := by
            have := congrArg List.tail hs
            simpa using this
          have hid : a.id = b.id := congrArg Prod.fst h1
          by_cases ha : (a.id == i) = true
          · have hb : (b.id == i) = true := by rw [← hid]; exact ha
            simp [List.find?, ha, hb, h1]
          · have hb : (b.id == i) = false := by
              rw [← hid]
              exact Bool.not_eq_true _ ▸ (by simpa using ha)
            simp only [List.find?, ha, hb]
            exact ih tl2 h2

lemma timeLimit_of_strip_eq (s₁ s₂ : SState) (i : Nat)
    (hs : s₁.drawings.map stripS = s₂.drawings.map stripS) :
    timeLimitOf s₁ i = timeLimitOf s₂ i := by
  have h := find?_of_strip_eq s₁.drawings s₂.drawings i hs
  have h2 := congrArg (Option.map (fun p : Nat × String × Option Int × Option Int => p.2.2.1)) h
  simpa [timeLimitOf, Option.map_map, stripS, Function.comp] using h2

lemma find?_eq_some_of_mem_nodup (l : List SDrawing) (d : SDrawing)
    (hn : (l.map (fun x => x.id)).Nodup) (hm : d ∈ l) :
    l.find? (fun x => x.id == d.id) = some d := by
  induction l with
  | nil => cases hm
  | cons a tl ih =>
      rw [List.map_cons, List.nodup_cons] at hn
      rcases List.mem_cons.mp hm with heq | htl
      · subst heq
        simp [List.find?]
      · by_cases ha : a.id = d.id
        · exfalso
          apply hn.1
          rw [ha]
          exact List.mem_map.mpr ⟨d, htl, rfl⟩
        · have hfa : (a.id == d.id) = false := by
            simpa using ha
          simp only [List.find?, hfa]
          exact ih hn.2 htl

lemma mem_eq_of_id_eq_nodup (l : List SDrawing) (x y : SDrawing)
    (hn : (l.map (fun v => v.id)).Nodup) (hx : x ∈ l) (hy : y ∈ l) (hid : x.id = y.id) :
    x = y := by
  induction l with
  | nil => cases hx
  | cons a tl ih =>
      rw [List.map_cons, List.nodup_cons] at hn
      rcases List.mem_cons.mp hx with hxa | hxt
      · rcases List.mem_cons.mp hy with hya | hyt
        · rw [hxa, hya]
        · exfalso
          apply hn.1
          rw [← hxa, hid]
          exact List.mem_map.mpr ⟨y, hyt, rfl⟩
      · rcases List.mem_cons.mp hy with hya | hyt
        · exfalso
          apply hn.1
          rw [← hya, ← hid]
          exact List.mem_map.mpr ⟨x, hxt, rfl⟩
        · exact ih hn.2 hxt hyt

lemma find?_map_closed_ne (l : List SDrawing) (j i : Nat) (h : j ≠ i) :
    (l.map (fun d => if d.id == j then { d with status := "closed" } else d)).find?
        (fun d => d.id == i) =
      l.find? (fun d => d.id == i) := by
  induction l with
  | nil => rfl
  | cons a tl ih =>
      by_cases haj : a.id = j
      · have h1 : (a.id == j) = true := by simpa using haj
        have h2 : (a.id == i) = false := by
          have : a.id ≠ i := by rw [haj]; exact h
          simpa using this
        simp only [List.map_cons, List.find?, h1, if_true, h2]
        simpa [h2] using ih
      · have h1 : (a.id == j) = false := by simpa using haj
        simp only [List.map_cons, List.find?, h1, if_false]
        cases hai : (a.id == i) with
        | true => simp [List.find?, hai]
        | false => simpa [List.find?, hai] using ih

lemma find?_setClosed_ne (s : SState) (j i : Nat) (h : j ≠ i) :
    findDrawingRow (setDrawingClosed s j) i = findDrawingRow s i :=
  find?_map_closed_ne s.drawings j i h

lemma find?_map_closed_self (l : List SDrawing) (i : Nat) :
    (l.map (fun d => if d.id == i then { d with status := "closed" } else d)).find?
        (fun d => d.id == i) =
      (l.find? (fun d => d.id == i)).map (fun d => { d with status := "closed" }) := by
  induction l with
  | nil => rfl
  | cons a tl ih =>
      cases hai : (a.id == i) with
      | true =>
          simp only [List.map_cons, List.find?, hai, if_true]
          simp [List.find?, hai]
      | false =>
          simp only [List.map_cons, List.find?, hai, if_false]
          simpa [List.find?, hai] using ih

lemma find?_setClosed_self (s : SState) (i : Nat) :
    findDrawingRow (setDrawingClosed s i) i =
      (findDrawingRow s i).map (fun d => { d with status := "closed" }) :=
  find?_map_closed_self s.drawings i

lemma capStep_find_ne (d : SDrawing) (st : SState) (ch : Option Unit) (i : Nat)
    (h : d.id ≠ i) :
    findDrawingRow (capStep d st ch).1 i = findDrawingRow st i := by
  unfold capStep
  split
  · exact find?_setClosed_ne st d.id i h
  · rfl

lemma winStep_find (d : SDrawing) (st : SState) (ch : Option Unit) (i : Nat) :
    findDrawingRow (winStep d st ch).1 i = findDrawingRow st i := by
  unfold findDrawingRow
  rw [winStep_drawings]

lemma timeStep_find_ne (now : Int) (d : SDrawing) (st : SState) (ch : Option Unit) (i : Nat)
    (h : d.id ≠ i) :
    findDrawingRow (timeStep now d st ch).st i = findDrawingRow st i := by
  unfold timeStep
  split
  · rfl
  · split
    · rfl
    · rfl
    · split
      · exact find?_setClosed_ne st d.id i h
      · rfl

lemma sweepBody_find_ne (now : Int) (d : SDrawing) (st : SState) (ch : Option Unit) (i : Nat)
    (h : d.id ≠ i) :
    findDrawingRow (sweepBody now d st ch).st i = findDrawingRow st i := by
  unfold sweepBody
  rw [timeStep_find_ne now d _ _ i h, winStep_find, capStep_find_ne d st ch i h]

lemma sweepGo_find_ne (now : Int) (ds : List SDrawing) (st : SState) (ch : Option Unit)
    (acc : List SwEvent) (i : Nat) (h : ∀ d ∈ ds, d.id ≠ i) :
    findDrawingRow (sweepGo now ds st ch acc).2 i = findDrawingRow st i := by
  induction ds generalizing st ch acc with
  | nil => rfl
  | cons d rest ih =>
      unfold sweepGo
      split
      · exact sweepBody_find_ne now d st ch i (h d (List.mem_cons_self d rest))
      · rw [ih _ _ _ (fun x hx => h x (List.mem_cons_of_mem d hx))]
        exact sweepBody_find_ne now d st ch i (h d (List.mem_cons_self d rest))

/-- The drawing a closure event names. -/
def closureId (e : SwEvent) : Option Nat :=
  match e with
  | SwEvent.closedCap i => some i
  | SwEvent.closedTimeout i => some i
  | _ => none

lemma capStep_ev_closure (d : SDrawing) (st : SState) (ch : Option Unit) (i : Nat)
    (h : d.id ≠ i) : ∀ e ∈ (capStep d st ch).2.1, closureId e ≠ some i := by
  unfold capStep
  split
  · intro e he
    simp only [List.mem_singleton] at he
    rw [he]
    simp [closureId, h]
  · intro e he
    cases he

lemma winStep_ev_closure (d : SDrawing) (st : SState) (ch : Option Unit) (i : Nat) :
    ∀ e ∈ (winStep d st ch).2, closureId e ≠ some i := by
  unfold winStep
  split
  · split
    · split
      · intro e he
        simp only [List.mem_singleton] at he
        rw [he]
        simp [closureId]
      · intro e he
        simp only [List.mem_singleton] at he
        rw [he]
        simp [closureId]
    · intro e he
      simp only [List.mem_singleton] at he
      rw [he]
      simp [closureId]
  · intro e he
    cases he

lemma timeStep_ev_closure (now : Int) (d : SDrawing) (st : SState) (ch : Option Unit)
    (i : Nat) (h : d.id ≠ i) : ∀ e ∈ (timeStep now d st ch).ev, closureId e ≠ some i := by
  unfold timeStep
  split
  · intro e he; cases he
  · split
    · intro e he; cases he
    · intro e he
      simp only [List.mem_singleton] at he
      rw [he]
      simp [closureId]
    · split
      · intro e he
        simp only [List.mem_singleton] at he
        rw [he]
        simp [closureId, h]
      · intro e he; cases he

lemma sweepBody_ev_closure (now : Int) (d : SDrawing) (st : SState) (ch : Option Unit)
    (i : Nat) (h : d.id ≠ i) :
    ∀ e ∈ (sweepBody now d st ch).ev, closureId e ≠ some i := by
  intro e he
  unfold sweepBody at he
  simp only [List.mem_append] at he
  rcases he with (he | he) | he
  · exact capStep_ev_closure d st ch i h e he
  · exact winStep_ev_closure d _ _ i e he
  · exact timeStep_ev_closure now d _ _ i h e he

lemma sweepGo_ev_closure (now : Int) (ds : List SDrawing) (st : SState) (ch : Option Unit)
    (acc : List SwEvent) (i : Nat) (h : ∀ d ∈ ds, d.id ≠ i) :
    ∀ e ∈ (sweepGo now ds st ch acc).1, e ∈ acc ∨ closureId e ≠ some i := by
  induction ds generalizing st ch acc with
  | nil =>
      intro e he
      exact Or.inl he
  | cons d rest ih =>
      intro e he
      unfold sweepGo at he
      split at he
      · simp only [List.mem_append] at he
        rcases he with he | he
        · exact Or.inl he
        · exact Or.inr (sweepBody_ev_closure now d st ch i
            (h d (List.mem_cons_self d rest)) e he)
      · rcases ih _ _ _ (fun x hx => h x (List.mem_cons_of_mem d hx)) e he with hacc | hcl
        · simp only [List.mem_append] at hacc
          rcases hacc with hacc | hacc
          · exact Or.inl hacc
          · exact Or.inr (sweepBody_ev_closure now d st ch i
              (h d (List.mem_cons_self d rest)) e hacc)
        · exact Or.inr hcl

/-- Sanity condition on the store: an open drawing whose start_time is set has its
time limit set too. Without it the sweep's time-limit block, which runs outside any
handler, aborts the whole invocation on `time_limit_hours[0] * 60 * 60` with a NULL
limit (the fetched one-element row is truthy even when it holds NULL). -/
def noPoison (s : SState) : Prop :=
  ∀ d ∈ s.drawings, d.status = "open" → d.start_time.isSome = true →
    d.time_limit_hours.isSome = true

lemma sweepBody_crashed_eq (now : Int) (d : SDrawing) (st : SState) (ch : Option Unit) :
    (sweepBody now d st ch).crashed =
      (timeStep now d (winStep d (capStep d st ch).1 (capStep d st ch).2.2).1
        (capStep d st ch).2.2).crashed := rfl

lemma sweepBody_st_eq (now : Int) (d : SDrawing) (st : SState) (ch : Option Unit) :
    (sweepBody now d st ch).st =
      (timeStep now d (winStep d (capStep d st ch).1 (capStep d st ch).2.2).1
        (capStep d st ch).2.2).st := rfl

lemma sweepGo_cons_no_crash (now : Int) (d : SDrawing) (rest : List SDrawing)
    (st : SState) (ch : Option Unit) (acc : List SwEvent)
    (hcr : (sweepBody now d st ch).crashed = false) :
    sweepGo now (d :: rest) st ch acc =
      sweepGo now rest (sweepBody now d st ch).st (sweepBody now d st ch).ch
        (acc ++ (sweepBody now d st ch).ev) := by
  have h : sweepGo now (d :: rest) st ch acc =
      if (sweepBody now d st ch).crashed = true then
        (acc ++ (sweepBody now d st ch).ev, (sweepBody now d st ch).st)
      else
        sweepGo now rest (sweepBody now d st ch).st (sweepBody now d st ch).ch
          (acc ++ (sweepBody now d st ch).ev) := rfl
  rw [h, hcr]
  simp

lemma timeStep_no_crash (now : Int) (d : SDrawing) (st : SState) (ch : Option Unit)
    (h : ∀ t, d.start_time = some t → timeLimitOf st d.id ≠ some none) :
    (timeStep now d st ch).crashed = false := by
  unfold timeStep
  split
  · rfl
  next t hst =>
    split
    · rfl
    next htl => exact absurd htl (h t hst)
    next => split <;> rfl

lemma timeStep_closes (now : Int) (d : SDrawing) (st : SState) (ch : Option Unit)
    (h t : Int) (hstart : d.start_time = some t)
    (hlim : timeLimitOf st d.id = some (some h)) (hexp : h * 3600 < now - t) :
    (timeStep now d st ch).st = setDrawingClosed st d.id ∧
      (timeStep now d st ch).crashed = false := by
  unfold timeStep
  rw [hstart, hlim]
  simp [hexp]

lemma sweepGo_prefix (now : Int) (s : SState)
    (hnodup : (s.drawings.map (fun x => x.id)).Nodup) (hnp : noPoison s)
    (l₁ rest : List SDrawing) (st : SState) (ch : Option Unit) (acc : List SwEvent)
    (hsub : ∀ x ∈ l₁, x ∈ s.drawings ∧ x.status = "open")
    (hstrip : st.drawings.map stripS = s.drawings.map stripS) :
    ∃ st2 ch2 acc2, sweepGo now (l₁ ++ rest) st ch acc = sweepGo now rest st2 ch2 acc2 ∧
      st2.drawings.map stripS = s.drawings.map stripS := by
  induction l₁ generalizing st ch acc with
  | nil => exact ⟨st, ch, acc, rfl, hstrip⟩
  | cons d tl ih =>
      have hd := hsub d (List.mem_cons_self d tl)
      have hstrip2 :
          ((winStep d (capStep d st ch).1 (capStep d st ch).2.2).1).drawings.map stripS =
            s.drawings.map stripS := by
        rw [winStep_drawings, capStep_strip, hstrip]
      have hcr : (sweepBody now d st ch).crashed = false := by
        rw [sweepBody_crashed_eq]
        apply timeStep_no_crash
        intro t hstart
        have hTL := timeLimit_of_strip_eq
          (winStep d (capStep d st ch).1 (capStep d st ch).2.2).1 s d.id
          (by rw [hstrip2])
        rw [hTL]
        unfold timeLimitOf
        rw [find?_eq_some_of_mem_nodup s.drawings d hnodup hd.1]
        have hsome : d.time_limit_hours.isSome = true :=
          hnp d hd.1 hd.2 (by rw [hstart]; rfl)
        intro hcontra
        simp only [Option.map_some', Option.some_inj] at hcontra
        rw [hcontra] at hsome
        cases hsome
      rw [List.cons_append, sweepGo_cons_no_crash now d (tl ++ rest) st ch acc hcr]
      exact ih _ _ _ (fun x hx => hsub x (List.mem_cons_of_mem d hx))
        (by rw [sweepBody_strip]; exact hstrip)

lemma findDrawingRow_def (s : SState) (i : Nat) :
    findDrawingRow s i = s.drawings.find? (fun x => x.id == i) := rfl

lemma checkDrawings_def (now : Int) (s : SState) :
    checkDrawings now s =
      sweepGo now (s.drawings.filter (fun x => x.status == "open")) s none [] := rfl

/-- C7 amended: on a store with distinct drawing ids in which no open row has
start_time set with a NULL time limit (the proviso the counterexample below forces),
a drawing that is open with time_limit_hours h whose start_time lies more than h
hours before the sweep time is closed by that sweep; and the following sweep, run on
the resulting state, emits no closure action for it and leaves it closed — the
closure happens exactly once across repeated sweeps. -/
theorem sweep_time_limit_closes_exactly_once
    (now₁ now₂ : Int) (s : SState) (d : SDrawing) (h t : Int)
    (hnodup : (s.drawings.map (fun x => x.id)).Nodup)
    (hnp : noPoison s)
    (hmem : d ∈ s.drawings) (hopen : d.status = "open")
    (hlim : d.time_limit_hours = some h) (hstart : d.start_time = some t)
    (hexp : h * 3600 < now₁ - t) :
    ((findDrawingRow (checkDrawings now₁ s).2 d.id).map (fun x => x.status) =
        some "closed") ∧
      (∀ e ∈ (checkDrawings now₂ (checkDrawings now₁ s).2).1,
        e ≠ SwEvent.closedCap d.id ∧ e ≠ SwEvent.closedTimeout d.id) ∧
      ((findDrawingRow (checkDrawings now₂ (checkDrawings now₁ s).2).2 d.id).map
          (fun x => x.status) = some "closed") := by
  have hdL : d ∈ s.drawings.filter (fun x => x.status == "open") :=
    List.mem_filter.mpr ⟨hmem, by simp [hopen]⟩
  obtain ⟨l₁, l₂, hsplit⟩ := List.append_of_mem hdL
  have hLnodup : ((s.drawings.filter (fun x => x.status == "open")).map
      (fun x => x.id)).Nodup :=
    List.Nodup.sublist (List.Sublist.map _ (List.filter_sublist s.drawings)) hnodup
  obtain ⟨st2, ch2, acc2, hgo, hstrip2⟩ :=
    sweepGo_prefix now₁ s hnodup hnp l₁ (d :: l₂) s none []
      (fun x hx => by
        have hx2 := List.mem_filter.mp (show x ∈ s.drawings.filter
            (fun x => x.status == "open") from hsplit ▸ List.mem_append_left _ hx)
        exact ⟨hx2.1, by simpa using hx2.2⟩)
      rfl
  have hstrip3 :
      ((winStep d (capStep d st2 ch2).1 (capStep d st2 ch2).2.2).1).drawings.map stripS =
        s.drawings.map stripS := by
    rw [winStep_drawings, capStep_strip, hstrip2]
  have hTL3 : timeLimitOf (winStep d (capStep d st2 ch2).1 (capStep d st2 ch2).2.2).1 d.id
      = some (some h) := by
    rw [timeLimit_of_strip_eq _ s d.id hstrip3]
    unfold timeLimitOf
    rw [find?_eq_some_of_mem_nodup s.drawings d hnodup hmem]
    simp [hlim]
  have hts := timeStep_closes now₁ d
    (winStep d (capStep d st2 ch2).1 (capStep d st2 ch2).2.2).1
    (capStep d st2 ch2).2.2 h t hstart hTL3 hexp
  have hcr : (sweepBody now₁ d st2 ch2).crashed = false := by
    rw [sweepBody_crashed_eq]
    exact hts.2
  have hbodyst : (sweepBody now₁ d st2 ch2).st =
      setDrawingClosed (winStep d (capStep d st2 ch2).1 (capStep d st2 ch2).2.2).1 d.id := by
    rw [sweepBody_st_eq]
    exact hts.1
  have hfind3 : ∃ dc3,
      ((winStep d (capStep d st2 ch2).1 (capStep d st2 ch2).2.2).1).drawings.find?
        (fun x => x.id == d.id) = some dc3 := by
    have hmap := find?_of_strip_eq _ s.drawings d.id hstrip3
    rw [find?_eq_some_of_mem_nodup s.drawings d hnodup hmem] at hmap
    cases hf : ((winStep d (capStep d st2 ch2).1 (capStep d st2 ch2).2.2).1).drawings.find?
        (fun x => x.id == d.id) with
    | none => rw [hf] at hmap; cases hmap
    | some dc3 => exact ⟨dc3, rfl⟩
  obtain ⟨dc3, hdc3⟩ := hfind3
  have hbodyfind : findDrawingRow (sweepBody now₁ d st2 ch2).st d.id =
      some { dc3 with status := "closed" } := by
    rw [hbodyst, find?_setClosed_self, findDrawingRow_def, hdc3]
    rfl
  have hl₂ : ∀ x ∈ l₂, x.id ≠ d.id := by
    have hn2 : ((l₁ ++ d :: l₂).map (fun x => x.id)).Nodup := by
      rw [← hsplit]
      exact hLnodup
    rw [List.map_append, List.map_cons] at hn2
    have hn4 := (List.nodup_cons.mp (List.nodup_append.mp hn2).2.1).1
    intro x hx hxeq
    exact hn4 (List.mem_map.mpr ⟨x, hx, hxeq⟩)
  have hcd1 : checkDrawings now₁ s =
      sweepGo now₁ l₂ (sweepBody now₁ d st2 ch2).st (sweepBody now₁ d st2 ch2).ch
        (acc2 ++ (sweepBody now₁ d st2 ch2).ev) := by
    rw [checkDrawings_def, hsplit, hgo, sweepGo_cons_no_crash now₁ d l₂ st2 ch2 acc2 hcr]
  have h1 : findDrawingRow (checkDrawings now₁ s).2 d.id =
      some { dc3 with status := "closed" } := by
    rw [hcd1, sweepGo_find_ne now₁ l₂ _ _ _ d.id hl₂, hbodyfind]
  have hstrip1 : (checkDrawings now₁ s).2.drawings.map stripS = s.drawings.map stripS := by
    rw [checkDrawings_def]
    exact sweepGo_strip now₁ _ s none []
  have hids1 : (checkDrawings now₁ s).2.drawings.map (fun x => x.id) =
      s.drawings.map (fun x => x.id) := by
    have hcongr := congrArg
      (List.map (fun p : Nat × String × Option Int × Option Int => p.1)) hstrip1
    simpa [List.map_map, Function.comp, stripS] using hcongr
  have hnodup1 : ((checkDrawings now₁ s).2.drawings.map (fun x => x.id)).Nodup := by
    rw [hids1]
    exact hnodup
  have hdcmem : ({ dc3 with status := "closed" } : SDrawing) ∈
      (checkDrawings now₁ s).2.drawings := by
    rw [findDrawingRow_def] at h1
    exact List.mem_of_find?_eq_some h1
  have hdc3id : dc3.id = d.id := by
    rw [findDrawingRow_def] at h1
    have := List.find?_some h1
    simpa using this
  have hopen1 : ∀ x ∈ (checkDrawings now₁ s).2.drawings.filter
      (fun x => x.status == "open"), x.id ≠ d.id := by
    intro x hx hxid
    have hx2 := List.mem_filter.mp hx
    have hxeq : x = { dc3 with status := "closed" } :=
      mem_eq_of_id_eq_nodup _ x _ hnodup1 hx2.1 hdcmem (by rw [hxid, ← hdc3id])
    rw [hxeq] at hx2
    simp at hx2
  have h2 : ∀ e ∈ (checkDrawings now₂ (checkDrawings now₁ s).2).1,
      e ≠ SwEvent.closedCap d.id ∧ e ≠ SwEvent.closedTimeout d.id := by
    intro e he
    rw [checkDrawings_def] at he
    rcases sweepGo_ev_closure now₂ _ _ none [] d.id hopen1 e he with hacc | hcl
    · cases hacc
    · constructor
      · intro heq
        rw [heq] at hcl
        exact hcl rfl
      · intro heq
        rw [heq] at hcl
        exact hcl rfl
  have h3 : findDrawingRow (checkDrawings now₂ (checkDrawings now₁ s).2).2 d.id =
      some { dc3 with status := "closed" } := by
    rw [checkDrawings_def, sweepGo_find_ne now₂ _ _ none [] d.id hopen1]
    exact h1
  refine ⟨?_, h2, ?_⟩
  · rw [h1]
    rfl
  · rw [h3]
    rfl

/-- A store in which an ordinary limitless drawing precedes the expired one: the
first is open with start_time set (start_drawing always sets it) and
time_limit_hours NULL (no limit was ever configured); the second is the claim's
expired drawing (limit one hour, started at time zero). -/
def sweepPoisonState : SState :=
  { drawings := [SDrawing.mk 2 "p" "open" none (some 0),
      SDrawing.mk 1 "r" "open" (some 1) (some 0)]
    entries := []
    results := [] }

/-- C7 counterexample: at 61 minutes past the start, drawing 1 satisfies every
premise of the claim (open, time_limit_hours 1, start_time more than an hour past),
yet the sweep does not close it: processing the limitless drawing first, the
unguarded `time_limit_hours[0] * 60 * 60` raises TypeError on the NULL limit and the
invocation aborts, leaving drawing 1 open with only the crash observable. -/
theorem sweep_time_limit_crash_leaves_expired_open :
    checkDrawings 3661 sweepPoisonState = ([SwEvent.crashed], sweepPoisonState) ∧
      ((findDrawingRow (checkDrawings 3661 sweepPoisonState).2 1).map
          (fun x => x.status) = some "open") := by
  constructor
  · rfl
  · rfl

/-- The store of the C7 scenario: one open drawing, time limit one hour, started at
time zero; the sweep runs 61 minutes later. -/
def sweepTimeoutState : SState :=
  { drawings := [SDrawing.mk 1 "r" "open" (some 1) (some 0)]
    entries := []
    results := [] }

/-- Witness for C7 at the concrete scenario: time_limit_hours one, start 61 minutes
in the past (3660 seconds, sweep at 3661), a later sweep at 7200. -/
theorem sweep_time_limit_closes_exactly_once_witness :
    ((findDrawingRow (checkDrawings 3661 sweepTimeoutState).2 1).map
        (fun x => x.status) = some "closed") ∧
      (∀ e ∈ (checkDrawings 7200 (checkDrawings 3661 sweepTimeoutState).2).1,
        e ≠ SwEvent.closedCap 1 ∧ e ≠ SwEvent.closedTimeout 1) ∧
      ((findDrawingRow (checkDrawings 7200 (checkDrawings 3661 sweepTimeoutState).2).2 1).map
          (fun x => x.status) = some "closed") :=
  sweep_time_limit_closes_exactly_once 3661 7200 sweepTimeoutState
    (SDrawing.mk 1 "r" "open" (some 1) (some 0)) 1 0
    (by decide) (by unfold noPoison; decide) (by decide) (by rfl) (by rfl) (by rfl)
    (by decide)
